import Mathlib

/-!
Shallow embedding of the query-execution core of Multi-Cloud-DB-Manager:
the SQL validator/splitter (`QueryValidator.ts`), the execution-state
manager (`ExecutionManager`), the per-target executor (`QueryExecutor.ts`)
and the orchestration loop (`QueryService.executeAsync`), together with
theorems settling the spec claims about them.

Strings are modelled as `List Char`; the JavaScript regular expressions of
the source are unfolded into explicit character scanners with the same
semantics (case-insensitive keyword prefixes, `\s` as ASCII whitespace,
`.` excluding line terminators, lazy block-comment matching).
-/

namespace MCDB

/-! ## Character and string helpers (JS semantics) -/

/-- ASCII whitespace, as matched by the JS `\s` class and `String.trim`
on the ASCII range (space, tab, LF, CR, VT, FF). -/
def jsSpace (c : Char) : Bool :=
  c == ' ' || c == '\t' || c == '\n' || c == '\r' ||
  c == Char.ofNat 11 || c == Char.ofNat 12

/-- Case-insensitive "starts with" over char lists (ASCII folding),
as produced by a JS `/^KEYWORD/i` test. -/
def startsCI : List Char → List Char → Bool
  | _, [] => true
  | [], _ :: _ => false
  | c :: cs, p :: ps => (c.toUpper == p.toUpper) && startsCI cs ps

/-- Case-insensitive substring test (JS `/KEYWORD/i` anywhere). -/
def containsCI : List Char → List Char → Bool
  | [], pat => startsCI [] pat
  | c :: cs, pat => startsCI (c :: cs) pat || containsCI cs pat

def dropSpaces (s : List Char) : List Char := s.dropWhile jsSpace

def trimLeft (s : List Char) : List Char := s.dropWhile jsSpace

def trimJS (s : List Char) : List Char :=
  ((s.dropWhile jsSpace).reverse.dropWhile jsSpace).reverse

/-- JS `String.split(sep)` for a one-character separator: keeps empty
fields, `"".split` gives `[""]`. -/
def splitOnChar (sep : Char) : List Char → List (List Char)
  | [] => [[]]
  | c :: rest =>
    let r := splitOnChar sep rest
    if c == sep then [] :: r
    else
      match r with
      | h :: t => (c :: h) :: t
      | [] => [[c]]

def joinWith (sep : Char) : List (List Char) → List Char
  | [] => []
  | [l] => l
  | l :: rest => l ++ sep :: joinWith sep rest

/-! ## Comment stripping

The two `replace` calls of `QueryValidator.ts`: first the global
multiline removal of `--` line comments, then the global lazy removal
of block comments.  Line comments: within each LF-separated line, `.`
does not cross CR, so only a `--` occurring after the last CR of the
line matches, and the text from it to the end of the line is removed.
Block comments: lazy match to the first closing delimiter; an
unterminated opener is left in place. -/

/-- Cut a `\r`-free line at its first `--`. -/
def cutDashDash : List Char → List Char
  | '-' :: '-' :: _ => []
  | c :: r => c :: cutDashDash r
  | [] => []

/-- Apply the `--.*$` removal to one `\n`-free line. -/
def cutLineComment (l : List Char) : List Char :=
  let tailRev := l.reverse.takeWhile (fun c => c != '\r')
  let headLen := l.length - tailRev.length
  l.take headLen ++ cutDashDash tailRev.reverse

def stripLineComments (s : List Char) : List Char :=
  joinWith '\n' ((splitOnChar '\n' s).map cutLineComment)

/-- One-pass block-comment stripper: `none` = outside a comment,
`some buf` = inside one, `buf` holding the comment text so far
(reversed) so an unterminated comment can be emitted unchanged. -/
def stripBlockAux : Option (List Char) → List Char → List Char
  | none, [] => []
  | none, '/' :: '*' :: r => stripBlockAux (some ['*', '/']) r
  | none, c :: r => c :: stripBlockAux none r
  | some buf, [] => buf.reverse
  | some _, '*' :: '/' :: r => stripBlockAux none r
  | some buf, c :: r => stripBlockAux (some (c :: buf)) r

def stripBlockComments (s : List Char) : List Char := stripBlockAux none s

/-- Comments removed, in the order the source applies the replacements. -/
def stripComments (s : List Char) : List Char :=
  stripBlockComments (stripLineComments s)

/-! ## Regex fragments used by the validator -/

/-- `\s+K` at the start of `t` (at least one space, then keyword). -/
def spaceThenKw (k : List Char) (t : List Char) : Bool :=
  match t with
  | [] => false
  | c :: _ => jsSpace c && startsCI (dropSpaces t) k

/-- `/^\s*K/i` -/
def kw1 (k : List Char) (s : List Char) : Bool := startsCI (dropSpaces s) k

/-- `/^\s*K1\s+K2/i` -/
def kw2 (k1 k2 : List Char) (s : List Char) : Bool :=
  let t := dropSpaces s
  startsCI t k1 && spaceThenKw k2 (t.drop k1.length)

/-- `/^\s*K1\s+/i` -/
def kwSp (k1 : List Char) (s : List Char) : Bool :=
  let t := dropSpaces s
  startsCI t k1 &&
    (match t.drop k1.length with
     | [] => false
     | c :: _ => jsSpace c)

/-- `\s+DROP\s+` found anywhere in `s` (the `/\s+DROP\s+/i` test used
for `ALTER ... DROP`). -/
def hasSpDropSp : List Char → Bool
  | [] => false
  | c :: r =>
    (jsSpace c && startsCI (dropSpaces (c :: r)) ['D', 'R', 'O', 'P'] &&
      (match (dropSpaces (c :: r)).drop 4 with
       | [] => false
       | d :: _ => jsSpace d)) ||
    hasSpDropSp r

/-! ## QueryValidator.validateQuery -/

structure VResult where
  valid : Bool
  error : Option String := none
deriving Repr, DecidableEq

/-- The fixed `absolutelyBlockedPatterns` deny-list of
`validateQuery`, all anchored with `^` at the start of the (single,
already-trimmed) cleaned query string. -/
def blockedAtStart (s : List Char) : Bool :=
  kw2 "DROP".toList "DATABASE".toList s ||
  kw2 "DROP".toList "SCHEMA".toList s ||
  kw2 "CREATE".toList "DATABASE".toList s ||
  kw2 "CREATE".toList "SCHEMA".toList s ||
  kw1 "GRANT".toList s ||
  kw1 "REVOKE".toList s ||
  kw2 "ALTER".toList "ROLE".toList s ||
  kw2 "ALTER".toList "USER".toList s ||
  kw2 "CREATE".toList "ROLE".toList s ||
  kw2 "CREATE".toList "USER".toList s ||
  kw2 "DROP".toList "ROLE".toList s ||
  kw2 "DROP".toList "USER".toList s

/-- The comment-stripped, trimmed query text of `validateQuery`. -/
def cleanedQuery (q : String) : List Char := trimJS (stripComments q.toList)

/-- `QueryValidator.validateQuery`. -/
def validateQuery (q : String) : VResult :=
  let clean := cleanedQuery q
  if clean.isEmpty then { valid := false, error := some "Query is empty" }
  else if blockedAtStart clean then
    { valid := false, error := some "This operation is not allowed for safety reasons" }
  else { valid := true }

/-! ## QueryValidator.requiresPasswordVerification -/

/-- The statement list `requiresPasswordVerification` inspects:
clean, trim, upper-case, split on `;`, trim each, drop empties. -/
def semiStatements (q : String) : List (List Char) :=
  let clean := (trimJS (stripComments q.toList)).map Char.toUpper
  ((splitOnChar ';' clean).map trimJS).filter (fun s => !s.isEmpty)

/-- The operations pushed onto `dangerousOperations` for one statement,
in source order (DROP, TRUNCATE, DELETE without WHERE, ALTER DROP). -/
def dangerOpsFor (s : List Char) : List String :=
  (if kwSp "DROP".toList s && !kw2 "DROP".toList "INDEX".toList s
   then ["DROP"] else []) ++
  (if kwSp "TRUNCATE".toList s then ["TRUNCATE"] else []) ++
  (if kw2 "DELETE".toList "FROM".toList s && !containsCI s "WHERE".toList
   then ["DELETE without WHERE"] else []) ++
  (if kwSp "ALTER".toList s && hasSpDropSp s then ["ALTER DROP"] else [])

/-- `QueryValidator.requiresPasswordVerification`. -/
def requiresPasswordVerification (q : String) : Option String :=
  let ops := ((semiStatements q).map dangerOpsFor).flatten
  if ops.isEmpty then none else some (String.intercalate ", " ops)

/-! ## QueryValidator.validateSchemaName and isTransactionStatement -/

def schemaCharOk (c : Char) : Bool :=
  c.isAlpha || c.isDigit || c == '_' || c == '-'

/-- `QueryValidator.validateSchemaName` (`/^[a-zA-Z0-9_-]+$/`). -/
def validateSchemaName (s : String) : VResult :=
  if !s.toList.isEmpty && s.toList.all schemaCharOk then { valid := true }
  else
    { valid := false
      error := some ("Invalid schema name: " ++ s ++
        ". Schema names can only contain letters, numbers, underscores, and hyphens.") }

def upperTrim (s : String) : List Char := (trimJS s.toList).map Char.toUpper

/-- `QueryValidator.isTransactionStatement`. -/
def isTransactionStatement (stmt : String) : Bool :=
  let u := upperTrim stmt
  "BEGIN".toList.isPrefixOf u ||
  "START TRANSACTION".toList.isPrefixOf u ||
  "COMMIT".toList.isPrefixOf u ||
  "ROLLBACK".toList.isPrefixOf u ||
  "SAVEPOINT".toList.isPrefixOf u ||
  "RELEASE".toList.isPrefixOf u ||
  "ABORT".toList.isPrefixOf u

/-! ## QueryValidator.splitStatements -/

/-- `/^\s*(BEGIN|DO\s+\$)/i` on a trimmed line. -/
def blockStart (t : List Char) : Bool :=
  let s := dropSpaces t
  startsCI s "BEGIN".toList ||
  (startsCI s "DO".toList && spaceThenKw ['$'] (s.drop 2))

/-- `/^\s*(END|EXCEPTION)/i` on a trimmed line. -/
def blockEnd (t : List Char) : Bool :=
  let s := dropSpaces t
  startsCI s "END".toList || startsCI s "EXCEPTION".toList

structure SplitState where
  stmts : List String
  current : List Char
  inBlock : Bool

/-- One line of the `splitStatements` loop. -/
def splitStep (st : SplitState) (line : List Char) : SplitState :=
  let t := trimJS line
  if t.isEmpty then st
  else
    let inB1 := if blockStart t then true else st.inBlock
    let inB2 := if inB1 && blockEnd t then false else inB1
    let cur := st.current ++ line ++ ['\n']
    if !inB2 && t.getLast? == some ';' then
      let tr := trimJS cur
      { stmts := if tr.isEmpty then st.stmts else st.stmts ++ [String.mk tr]
        current := []
        inBlock := inB2 }
    else { st with current := cur, inBlock := inB2 }

/-- `QueryValidator.splitStatements`. -/
def splitStatements (q : String) : List String :=
  let clean := stripComments q.toList
  let lines := splitOnChar '\n' clean
  let fin := lines.foldl splitStep { stmts := [], current := [], inBlock := false }
  let tr := trimJS fin.current
  let stmts := if tr.isEmpty then fin.stmts else fin.stmts ++ [String.mk tr]
  if stmts.isEmpty && !(trimJS clean).isEmpty then [String.mk (trimJS clean)]
  else stmts

/-! ## Association lists (JS `Map` with insertion order) -/

/-- First value stored under `k` (`Map.get`). -/
def lookupA {α : Type} (l : List (String × α)) (k : String) : Option α :=
  match l with
  | [] => none
  | (k', v) :: t => if k' = k then some v else lookupA t k

/-- `Map.set`: replace in place if the key exists, else append. -/
def setA {α : Type} (l : List (String × α)) (k : String) (v : α) :
    List (String × α) :=
  match l with
  | [] => [(k, v)]
  | (k', v') :: t => if k' = k then (k, v) :: t else (k', v') :: setA t k v

/-- `Map.delete`: remove the entry, preserving the others' order. -/
def eraseA {α : Type} (l : List (String × α)) (k : String) :
    List (String × α) :=
  l.filter (fun e => !(e.1 = k))

/-! ## Result payloads

`CleanQueryResult` keeps only the essential fields of a pg result; the
row/field payloads are irrelevant to every claim and elided. -/

structure QRes where
  command : String := ""
  rowCount : Option Nat := none
deriving Repr, DecidableEq

/-- One entry of the ordered multi-statement result list. -/
structure StmtResult where
  statement : String
  success : Bool
  error : Option String := none
  rowsAffected : Option Nat := none
  result : Option QRes := none
deriving Repr, DecidableEq

/-- The value `executeOnDatabase` resolves with (single- or
multi-statement shape). -/
structure DbResult where
  success : Bool
  result : Option QRes := none
  results : Option (List StmtResult) := none
  error : Option String := none
  duration_ms : Nat := 0
  statementCount : Option Nat := none
  wasCancelled : Option Bool := none
deriving Repr, DecidableEq

/-- The aggregated `QueryResponse` built by `executeAsync`: id, overall
success, per-cloud outcomes, optional error. -/
structure QueryResponseM where
  id : String := ""
  success : Bool := false
  clouds : List (String × DbResult) := []
  error : Option String := none
deriving Repr, DecidableEq

/-! ## ExecutionManager state -/

inductive ExecStatus where
  | running | completed | failed | cancelled
deriving Repr, DecidableEq

structure Progress where
  currentStatement : Nat
  totalStatements : Nat
  currentStatementText : Option String := none
deriving Repr, DecidableEq

/-- `ExecutionResult` of `ExecutionManager`. -/
structure ExecRecord where
  executionId : String
  userId : Option String := none
  status : ExecStatus
  result : Option QueryResponseM := none
  error : Option String := none
  progress : Option Progress := none
  startTime : Nat
  endTime : Option Nat := none
deriving Repr, DecidableEq

structure ClientEntry where
  backendPid : Option Nat := none
deriving Repr, DecidableEq

/-- `ActiveExecution`: per-target live resources plus the shared
cancellation flag. -/
structure ActiveExec where
  executionId : String
  clients : List (String × ClientEntry)
  startTime : Nat
  cancelled : Bool
deriving Repr, DecidableEq

/-- The two maps owned by `ExecutionManager`, with its configuration. -/
structure MgrState where
  active : List (String × ActiveExec) := []
  results : List (String × ExecRecord) := []
  maxResultsSize : Nat := 1000
  maxResultsAge : Nat := 1800000
  maxActiveAge : Nat := 1800000
deriving Repr, DecidableEq

/-! ## ExecutionManager operations -/

/-- Comparator of `enforceMaxSize` as a `Bool` order: `a` may stay
before `b` (running records order after every terminal one). -/
def evictLe (a b : ExecRecord) : Bool :=
  match a.endTime, b.endTime with
  | none, _ => false
  | some _, none => true
  | some x, some y => x ≤ y

def insSorted (x : String × ExecRecord) :
    List (String × ExecRecord) → List (String × ExecRecord)
  | [] => [x]
  | y :: t => if evictLe y.2 x.2 then y :: insSorted x t else x :: y :: t

/-- The stable sort of `enforceMaxSize`: terminal records ascending by
`endTime` (insertion order preserved on ties), running records last. -/
def sortForEviction (l : List (String × ExecRecord)) :
    List (String × ExecRecord) :=
  l.foldl (fun acc x => insSorted x acc) []

/-- `ExecutionManager.enforceMaxSize`: when over the cap, delete the
oldest-by-`endTime` entries among the first `size - max` of the sorted
snapshot, skipping records without an `endTime`. -/
def enforceMaxSize (st : MgrState) : MgrState :=
  if st.results.length ≤ st.maxResultsSize then st
  else
    let sorted := sortForEviction st.results
    let toRemove := st.results.length - st.maxResultsSize
    let victims :=
      ((sorted.take toRemove).filter (fun e => e.2.endTime.isSome)).map (·.1)
    { st with
      results := st.results.filter (fun e => !(decide (e.1 ∈ victims))) }

/-- `ExecutionManager.initializeExecution` (sets a fresh running record,
then enforces the size cap). -/
def initializeExecution (st : MgrState) (id : String) (userId : Option String)
    (now : Nat) : MgrState :=
  enforceMaxSize
    { st with
      results := setA st.results id
        { executionId := id
          userId := userId
          status := .running
          startTime := now
          progress := some { currentStatement := 0, totalStatements := 0 } } }

/-- `ExecutionManager.getExecutionStatus`. -/
def getExecutionStatus (st : MgrState) (id : String) : Option ExecRecord :=
  lookupA st.results id

/-- `ExecutionManager.registerActiveExecution`. -/
def registerActiveExecution (st : MgrState) (id cloudKey : String)
    (pid : Option Nat) (now : Nat) : MgrState :=
  let ex :=
    match lookupA st.active id with
    | some e => e
    | none =>
      { executionId := id, clients := [], startTime := now, cancelled := false }
  { st with
    active := setA st.active id
      { ex with clients := setA ex.clients cloudKey { backendPid := pid } } }

/-- `ExecutionManager.markAsCancelled`: `false` (state untouched) when
no active entry is tracked; otherwise set the shared flag, flip the
stored record to cancelled with an `endTime`, and return `true`. -/
def markAsCancelled (st : MgrState) (id : String) (now : Nat) :
    Bool × MgrState :=
  match lookupA st.active id with
  | none => (false, st)
  | some ex =>
    let st1 := { st with active := setA st.active id { ex with cancelled := true } }
    let st2 :=
      match lookupA st1.results id with
      | some r =>
        { st1 with
          results := setA st1.results id
            { r with status := .cancelled, endTime := some now } }
      | none => st1
    (true, st2)

/-- `ExecutionManager.updateProgress` (no-op when the record is gone). -/
def updateProgress (st : MgrState) (id : String) (cur tot : Nat)
    (txt : Option String) : MgrState :=
  match lookupA st.results id with
  | none => st
  | some r =>
    let p : Progress :=
      { currentStatement := cur, totalStatements := tot
        currentStatementText := txt }
    { st with results := setA st.results id { r with progress := some p } }

/-- `ExecutionManager.completeExecution`: always attach the response and
`endTime`; only change the status when not already cancelled. -/
def completeExecution (st : MgrState) (id : String) (resp : QueryResponseM)
    (success : Bool) (now : Nat) : MgrState :=
  match lookupA st.results id with
  | none => st
  | some r =>
    { st with
      results := setA st.results id
        { r with
          result := some resp
          status := if r.status = .cancelled then r.status
                    else if success then .completed else .failed
          endTime := some now } }

/-- `ExecutionManager.failExecution`: set failed + error + `endTime`
unless already cancelled (then leave the record untouched). -/
def failExecution (st : MgrState) (id : String) (msg : String) (now : Nat) :
    MgrState :=
  match lookupA st.results id with
  | none => st
  | some r =>
    if r.status = .cancelled then st
    else
      { st with
        results := setA st.results id
          { r with status := .failed, error := some msg, endTime := some now } }

/-- `ExecutionManager.releaseClient`: drop the per-target entry; when it
was the last one, drop the whole `ActiveExecution` record. -/
def releaseClient (st : MgrState) (id cloudKey : String) : MgrState :=
  match lookupA st.active id with
  | none => st
  | some ex =>
    let clients := eraseA ex.clients cloudKey
    if clients.isEmpty then { st with active := eraseA st.active id }
    else { st with active := setA st.active id { ex with clients := clients } }

/-- `ExecutionManager.isCancelled`: reads only the active map. -/
def isCancelled (st : MgrState) (id : String) : Bool :=
  match lookupA st.active id with
  | some ex => ex.cancelled
  | none => false

/-- `ExecutionManager.cleanup` (the periodic sweep): drop terminal
results older than `maxResultsAge`, and force-drop active-resource
entries running longer than `maxActiveAge`. -/
def cleanup (st : MgrState) (now : Nat) : MgrState :=
  { st with
    results := st.results.filter (fun e =>
      match e.2.endTime with
      | some et => !(st.maxResultsAge < now - et)
      | none => true)
    active := st.active.filter (fun e =>
      !(st.maxActiveAge < now - e.2.startTime)) }

/-! ## QueryExecutor

`executeOnDatabase` is modelled as a pure function over an environment
`DbEnv` describing how the database behaves: whether the pool exists,
whether `pool.connect()` succeeds, what the backend-pid capture query
returns, and for every SQL text the duration and result of running it.
Resource handling (connection lease/release, registration in the active
map, cancellation marks) is recorded as an ordered event trace, and the
`ExecutionManager` state is threaded through. -/

/-- Behaviour of one `client.query`/`pool.query` call: resolve with a
result, or reject with an error message, after `duration` ms. -/
inductive QueryBehavior where
  | ok (res : QRes) (duration : Nat)
  | fails (msg : String) (duration : Nat)
deriving Repr, DecidableEq

def durationOf : QueryBehavior → Nat
  | .ok _ d => d
  | .fails _ d => d

structure DbEnv where
  poolFound : Bool := true
  /-- result of `pool.connect()` -/
  connectRes : Except String Unit := .ok ()
  /-- result of the backend-pid capture query (the pid, or a thrown error) -/
  pidRes : Except String Nat := .ok 0
  query : String → QueryBehavior

/-- Resource/effect trace of one `executeOnDatabase` call. -/
inductive ExecEvent where
  | connected
  | released
  | registered (id cloudKey : String)
  | deregistered (id cloudKey : String)
  | queryIssued (sql : String)
  | cancelTriggered (id : String)
deriving Repr, DecidableEq

instance {ε α : Type} [DecidableEq ε] [DecidableEq α] :
    DecidableEq (Except ε α)
  | .ok x, .ok y => decidable_of_iff (x = y) (by simp)
  | .error x, .error y => decidable_of_iff (x = y) (by simp)
  | .ok _, .error _ => isFalse (by intro h; exact Except.noConfusion h)
  | .error _, .ok _ => isFalse (by intro h; exact Except.noConfusion h)

structure ExecRun where
  /-- `.error` = the call itself threw to its caller -/
  outcome : Except String DbResult
  mgr : MgrState
  events : List ExecEvent
  clock : Nat
deriving Repr, DecidableEq

def timeoutMsg (t : Nat) : String := "Query timeout after " ++ toString t ++ "ms"

def stmtTimeoutMsg (t : Nat) : String :=
  "Statement timeout after " ++ toString t ++ "ms"

/-- The outer `catch` of `executeOnDatabase`: multi-statement scripts get
one failed entry per statement, single statements the simple shape. -/
def outerCatch (stmts : List String) (m : String) (dur : Nat) : DbResult :=
  if 1 < stmts.length then
    { success := false
      results := some (stmts.map (fun st =>
        { statement := st, success := false, error := some m }))
      duration_ms := dur
      statementCount := some stmts.length }
  else { success := false, error := some m, duration_ms := dur }

/-- The `finally` block: `client.release()` then, when an execution id is
present, `ExecutionManager.releaseClient`. -/
def applyRelease (id? : Option String) (cloudKey : String) (mgr : MgrState)
    (ev : List ExecEvent) : MgrState × List ExecEvent :=
  match id? with
  | some i =>
    (releaseClient mgr i cloudKey,
     ev ++ [ExecEvent.released, ExecEvent.deregistered i cloudKey])
  | none => (mgr, ev ++ [ExecEvent.released])

/-! ### executeMultipleStatements -/

/-- Transaction-state update performed before running a statement. -/
def txAfter (stmt : String) (cur : Bool) : Bool :=
  if isTransactionStatement stmt then
    let u := upperTrim stmt
    if "BEGIN".toList.isPrefixOf u || "START TRANSACTION".toList.isPrefixOf u
    then true
    else if "COMMIT".toList.isPrefixOf u || "ROLLBACK".toList.isPrefixOf u
    then false
    else cur
  else cur

structure MultiState where
  results : List StmtResult
  allSuccess : Bool
  inTransaction : Bool
  mgr : MgrState
  events : List ExecEvent
  clock : Nat
deriving Repr, DecidableEq

def progressAfter (id? : Option String) (total : Nat) (stmt : String)
    (s : MultiState) : MultiState :=
  match id? with
  | some i =>
    { s with mgr := updateProgress s.mgr i s.results.length total (some stmt) }
  | none => s

/-- The statement loop of `executeMultipleStatements`: cancellation
check, transaction tracking, per-statement timeout race, auto-ROLLBACK
on failure inside a transaction, stop unless `continueOnError`. -/
def runStmts (env : DbEnv) (stmtT : Nat) (id? : Option String) (cont : Bool)
    (total : Nat) : List String → MultiState → MultiState
  | [], s => s
  | stmt :: rest, s =>
    if (match id? with | some i => isCancelled s.mgr i | none => false) then
      { s with
        results := s.results ++
          [{ statement := stmt, success := false
             error := some "Query was cancelled by user" }]
        allSuccess := false }
    else
      let inTx := txAfter stmt s.inTransaction
      let b := env.query stmt
      let raced : Except String QRes × Nat :=
        if stmtT < durationOf b then (.error (stmtTimeoutMsg stmtT), stmtT)
        else
          match b with
          | .ok r dd => (.ok r, dd)
          | .fails m dd => (.error m, dd)
      match raced with
      | (.ok r, dd) =>
        let s1 :=
          { s with
            results := s.results ++
              [{ statement := stmt, success := true, result := some r
                 rowsAffected := some (r.rowCount.getD 0) }]
            inTransaction := inTx
            events := s.events ++ [ExecEvent.queryIssued stmt]
            clock := s.clock + dd }
        runStmts env stmtT id? cont total rest (progressAfter id? total stmt s1)
      | (.error m, dd) =>
        let s1 :=
          { s with
            results := s.results ++
              [{ statement := stmt, success := false, error := some m }]
            allSuccess := false
            inTransaction := inTx
            events := s.events ++ [ExecEvent.queryIssued stmt]
            clock := s.clock + dd }
        let s2 :=
          if inTx && !isTransactionStatement stmt then
            match env.query "ROLLBACK" with
            | .ok _ d2 =>
              { s1 with
                results := s1.results ++
                  [{ statement := "ROLLBACK (auto)", success := true
                     rowsAffected := some 0 }]
                inTransaction := false
                events := s1.events ++ [ExecEvent.queryIssued "ROLLBACK"]
                clock := s1.clock + d2 }
            | .fails m2 d2 =>
              { s1 with
                results := s1.results ++
                  [{ statement := "ROLLBACK (auto)", success := false
                     error := some m2 }]
                events := s1.events ++ [ExecEvent.queryIssued "ROLLBACK"]
                clock := s1.clock + d2 }
          else s1
        if !cont then s2
        else runStmts env stmtT id? cont total rest (progressAfter id? total stmt s2)

structure MultiRun where
  res : DbResult
  mgr : MgrState
  events : List ExecEvent
  clock : Nat
deriving Repr, DecidableEq

/-- `QueryExecutor.executeMultipleStatements` (given the already-split
statement list, an acquired client and the outer `startTime`). -/
def executeMultipleStatementsM (env : DbEnv) (stmtT : Nat)
    (id? : Option String) (cont : Bool) (stmts : List String)
    (mgr0 : MgrState) (t0 clock0 : Nat) (ev0 : List ExecEvent) : MultiRun :=
  let s := runStmts env stmtT id? cont stmts.length stmts
    { results := [], allSuccess := true, inTransaction := false
      mgr := mgr0, events := ev0, clock := clock0 }
  { res :=
      { success := s.allSuccess, results := some s.results
        duration_ms := s.clock - t0, statementCount := some stmts.length }
    mgr := s.mgr, events := s.events, clock := s.clock }

/-! ### executeOnDatabase -/

structure TryOut where
  res : Except String DbResult
  mgr : MgrState
  events : List ExecEvent
  clock : Nat
deriving Repr, DecidableEq

/-- Body of the inner `try` of the `pgSchema` path: cancellation check,
schema validation, `SET search_path`, then single statement (plain
`client.query`, no timeout protection) or the multi-statement loop. -/
def schemaTryBody (env : DbEnv) (mgr1 : MgrState) (t0 : Nat) (schema : String)
    (stmts : List String) (stmtT : Nat) (cont : Bool) (id? : Option String)
    (ev1 : List ExecEvent) : TryOut :=
  if (match id? with | some i => isCancelled mgr1 i | none => false) then
    { res := .ok
        { success := false, error := some "Query was cancelled by user"
          duration_ms := 0, wasCancelled := some true }
      mgr := mgr1, events := ev1, clock := t0 }
  else
    let v := validateSchemaName schema
    if !v.valid then
      { res := .error (v.error.getD ""), mgr := mgr1, events := ev1, clock := t0 }
    else
      let setQ := "SET search_path TO " ++ schema ++ ", public"
      match env.query setQ with
      | .fails m d =>
        { res := .error m, mgr := mgr1
          events := ev1 ++ [ExecEvent.queryIssued setQ], clock := t0 + d }
      | .ok _ d =>
        let ev2 := ev1 ++ [ExecEvent.queryIssued setQ]
        let c2 := t0 + d
        match stmts with
        | [s] =>
          match env.query s with
          | .ok r d2 =>
            { res := .ok
                { success := true, result := some r, duration_ms := c2 + d2 - t0 }
              mgr := mgr1, events := ev2 ++ [ExecEvent.queryIssued s]
              clock := c2 + d2 }
          | .fails m d2 =>
            { res := .ok
                { success := false, error := some m, duration_ms := c2 + d2 - t0 }
              mgr := mgr1, events := ev2 ++ [ExecEvent.queryIssued s]
              clock := c2 + d2 }
        | _ =>
          let mr := executeMultipleStatementsM env stmtT id? cont stmts mgr1 t0 c2 ev2
          { res := .ok mr.res, mgr := mr.mgr, events := mr.events, clock := mr.clock }

/-- `pgSchema` path after a successful `pool.connect()` and (when an id
is present) pid capture/registration: inner try + finally + outer catch. -/
def finishSchema (env : DbEnv) (mgr1 : MgrState) (t0 : Nat)
    (cloudKey schema : String) (stmts : List String) (stmtT : Nat)
    (cont : Bool) (id? : Option String) (ev1 : List ExecEvent) : ExecRun :=
  let body := schemaTryBody env mgr1 t0 schema stmts stmtT cont id? ev1
  let rel := applyRelease id? cloudKey body.mgr body.events
  match body.res with
  | .ok r => { outcome := .ok r, mgr := rel.1, events := rel.2, clock := body.clock }
  | .error m =>
    { outcome := .ok (outerCatch stmts m (body.clock - t0))
      mgr := rel.1, events := rel.2, clock := body.clock }

/-- `QueryExecutor.executeOnDatabase`.  Note two structural facts taken
directly from the source: in the `pgSchema` path the backend-pid capture
query runs between `pool.connect()` and the `try` whose `finally`
releases the client, so a throw there skips the release; and the single
statement of a `pgSchema` run is executed by plain `client.query`
without `executeWithTimeout`. -/
def executeOnDatabase (env : DbEnv) (mgr0 : MgrState) (t0 : Nat)
    (cloudName databaseName query : String) (timeout stmtT : Nat)
    (pgSchema : Option String) (cont : Bool) (id? : Option String) : ExecRun :=
  let stmts := splitStatements query
  let cloudKey := cloudName ++ "_" ++ databaseName
  if !env.poolFound then
    { outcome := .error ("Pool not found for " ++ cloudKey)
      mgr := mgr0, events := [], clock := t0 }
  else
    match pgSchema with
    | some schema =>
      match env.connectRes with
      | .error m =>
        { outcome := .ok (outerCatch stmts m 0), mgr := mgr0, events := []
          clock := t0 }
      | .ok _ =>
        let ev0 := [ExecEvent.connected]
        match id? with
        | some i =>
          match env.pidRes with
          | .error m =>
            -- pid capture threw before the try/finally: no release happens
            { outcome := .ok (outerCatch stmts m 0), mgr := mgr0
              events := ev0, clock := t0 }
          | .ok pid =>
            let mgr1 := registerActiveExecution mgr0 i cloudKey (some pid) t0
            finishSchema env mgr1 t0 cloudKey schema stmts stmtT cont (some i)
              (ev0 ++ [ExecEvent.registered i cloudKey])
        | none => finishSchema env mgr0 t0 cloudKey schema stmts stmtT cont none ev0
    | none =>
      match stmts with
      | [_] =>
        -- executeWithTimeout(pool, query, timeout, executionId): on
        -- timeout, markAsCancelled then reject with the timeout error
        let b := env.query query
        if timeout < durationOf b then
          match id? with
          | some i =>
            { outcome := .ok
                { success := false, error := some (timeoutMsg timeout)
                  duration_ms := timeout }
              mgr := (markAsCancelled mgr0 i (t0 + timeout)).2
              events := [ExecEvent.queryIssued query, ExecEvent.cancelTriggered i]
              clock := t0 + timeout }
          | none =>
            { outcome := .ok
                { success := false, error := some (timeoutMsg timeout)
                  duration_ms := timeout }
              mgr := mgr0, events := [ExecEvent.queryIssued query]
              clock := t0 + timeout }
        else
          match b with
          | .ok r dd =>
            { outcome := .ok { success := true, result := some r, duration_ms := dd }
              mgr := mgr0, events := [ExecEvent.queryIssued query], clock := t0 + dd }
          | .fails m dd =>
            { outcome := .ok { success := false, error := some m, duration_ms := dd }
              mgr := mgr0, events := [ExecEvent.queryIssued query], clock := t0 + dd }
      | _ =>
        match env.connectRes with
        | .error m =>
          { outcome := .ok (outerCatch stmts m 0), mgr := mgr0, events := []
            clock := t0 }
        | .ok _ =>
          let ev0 := [ExecEvent.connected]
          match id? with
          | some i =>
            match env.pidRes with
            | .error m =>
              -- same leak as above: pid capture precedes the try/finally
              { outcome := .ok (outerCatch stmts m 0), mgr := mgr0
                events := ev0, clock := t0 }
            | .ok pid =>
              let mgr1 := registerActiveExecution mgr0 i cloudKey (some pid) t0
              let mr := executeMultipleStatementsM env stmtT (some i) cont stmts
                mgr1 t0 t0 (ev0 ++ [ExecEvent.registered i cloudKey])
              let rel := applyRelease (some i) cloudKey mr.mgr mr.events
              { outcome := .ok mr.res, mgr := rel.1, events := rel.2
                clock := mr.clock }
          | none =>
            let mr := executeMultipleStatementsM env stmtT none cont stmts mgr0 t0 t0 ev0
            let rel := applyRelease none cloudKey mr.mgr mr.events
            { outcome := .ok mr.res, mgr := rel.1, events := rel.2
              clock := mr.clock }

/-! ## QueryService.executeAsync (orchestration loop) -/

/-- Target resolution from the request mode. -/
def cloudsForMode (primary : String) (secondaries : List String)
    (mode : String) : List String :=
  if mode == "both" then primary :: secondaries else [mode]

/-- Behaviour of one per-target execution as seen by the orchestration
loop: the awaited `executeOnDatabase` either resolves with a result or
throws. -/
inductive CloudBehavior where
  | succeeds (r : DbResult)
  | throwsErr (msg : String)

structure LoopOut where
  entries : List (String × DbResult)
  successes : List Bool
  success : Bool
deriving Repr, DecidableEq

/-- The per-cloud loop of `executeAsync`: check cancellation before each
target, record a thrown error as that target's failure, collect one
success flag per invoked target. -/
def runClouds (beh : String → CloudBehavior) (cancelledAt : Nat → Bool) :
    List String → Nat → List (String × DbResult) → List Bool →
    List (String × DbResult) × List Bool
  | [], _, acc, succs => (acc, succs)
  | c :: rest, i, acc, succs =>
    if cancelledAt i then (acc, succs)
    else
      match beh c with
      | .succeeds r =>
        runClouds beh cancelledAt rest (i + 1) (setA acc c r) (succs ++ [r.success])
      | .throwsErr m =>
        runClouds beh cancelledAt rest (i + 1)
          (setA acc c { success := false, error := some m, duration_ms := 0 })
          (succs ++ [false])

/-- Aggregation of `executeAsync`: overall success =
`successes.length > 0 && successes.every(s => s)`. -/
def executeAsyncLoop (clouds : List String) (beh : String → CloudBehavior)
    (cancelledAt : Nat → Bool) : LoopOut :=
  let out := runClouds beh cancelledAt clouds 0 [] []
  { entries := out.1, successes := out.2
    success := decide (0 < out.2.length) && out.2.all id }

/-! ## Helper lemmas -/

theorem lookupA_setA_self {α : Type} (l : List (String × α)) (k : String)
    (v : α) : lookupA (setA l k v) k = some v := by
  induction l with
  | nil => simp [setA, lookupA]
  | cons e t ih =>
    by_cases h : e.1 = k
    · simp [setA, h, lookupA]
    · simp [setA, h, lookupA, ih]

theorem lookupA_setA_ne {α : Type} (l : List (String × α)) (k k' : String)
    (v : α) (h : k ≠ k') : lookupA (setA l k v) k' = lookupA l k' := by
  induction l with
  | nil => simp [setA, lookupA, h]
  | cons e t ih =>
    by_cases he : e.1 = k
    · simp [setA, he, lookupA, h]
    · simp [setA, he, lookupA, ih]

theorem lookupA_eraseA_self {α : Type} (l : List (String × α)) (k : String) :
    lookupA (eraseA l k) k = none := by
  induction l with
  | nil => rfl
  | cons e t ih =>
    by_cases h : e.1 = k
    · simpa [eraseA, h] using ih
    · simpa [eraseA, h, lookupA] using ih

theorem lookupA_eq_none_of_keys {α : Type} (l : List (String × α)) (k : String)
    (h : ∀ e ∈ l, e.1 ≠ k) : lookupA l k = none := by
  induction l with
  | nil => rfl
  | cons e t ih =>
    have he := h e (by simp)
    simp only [lookupA, if_neg he]
    exact ih (fun e' he' => h e' (by simp [he']))

theorem setA_eq_append {α : Type} (l : List (String × α)) (k : String) (v : α)
    (h : lookupA l k = none) : setA l k v = l ++ [(k, v)] := by
  induction l with
  | nil => rfl
  | cons e t ih =>
    by_cases he : e.1 = k
    · simp [lookupA, he] at h
    · simp only [lookupA, if_neg he] at h
      simp [setA, he, ih h]

theorem lookupA_append_none {α : Type} (l1 l2 : List (String × α)) (k : String)
    (h : lookupA l1 k = none) : lookupA (l1 ++ l2) k = lookupA l2 k := by
  induction l1 with
  | nil => rfl
  | cons e t ih =>
    by_cases he : e.1 = k
    · simp [lookupA, he] at h
    · simp only [lookupA, if_neg he] at h
      simp [lookupA, if_neg he, ih h]

theorem setA_append_none {α : Type} (l1 l2 : List (String × α)) (k : String)
    (v : α) (h : lookupA l1 k = none) :
    setA (l1 ++ l2) k v = l1 ++ setA l2 k v := by
  induction l1 with
  | nil => rfl
  | cons e t ih =>
    by_cases he : e.1 = k
    · simp [lookupA, he] at h
    · simp only [lookupA, if_neg he] at h
      simp [setA, he, ih h]

theorem lookupA_filter_keep {α : Type} (l : List (String × α))
    (p : String × α → Bool) (k : String) (v : α) (h : lookupA l k = some v)
    (hp : p (k, v) = true) : lookupA (l.filter p) k = some v := by
  induction l with
  | nil => simp [lookupA] at h
  | cons e t ih =>
    by_cases he : e.1 = k
    · simp only [lookupA, if_pos he] at h
      have : e = (k, v) := by
        cases e; cases h; cases he; rfl
      subst this
      simp [List.filter, hp, lookupA]
    · simp only [lookupA, if_neg he] at h
      cases hpe : p e
      · simp [List.filter, hpe, ih h]
      · simp [List.filter, hpe, lookupA, if_neg he, ih h]

/-! ## Claim C1 -/

/-- C1: the deny-list test of `validateQuery` is anchored at the start of
the (single) cleaned query string; `"SELECT 1;\nDROP DATABASE x;"` splits
into two statements, the second of which matches the deny-list, yet
`validateQuery` accepts the script — the claim's "regardless of the
statement's position in the script" is false. -/
theorem c1_counterexample :
    splitStatements "SELECT 1;\nDROP DATABASE x;" =
      ["SELECT 1;", "DROP DATABASE x;"] ∧
    blockedAtStart "DROP DATABASE x;".toList = true ∧
    validateQuery "SELECT 1;\nDROP DATABASE x;" = { valid := true } := by
  refine ⟨by decide, by decide, by decide⟩

/-- C1 (amended): `validateQuery` fails exactly when the comment-stripped,
trimmed script is empty or *begins* with a deny-listed operation
(database/schema create-or-drop, role/user management, grant/revoke);
in particular it rejects `DROP DATABASE x`, `CREATE SCHEMA x`,
`GRANT ...`, `ALTER ROLE ...` and accepts `SELECT 1`. -/
theorem c1_amended :
    (∀ q : String, (validateQuery q).valid = false ↔
      ((cleanedQuery q).isEmpty = true ∨ blockedAtStart (cleanedQuery q) = true)) ∧
    validateQuery "DROP DATABASE x" =
      { valid := false, error := some "This operation is not allowed for safety reasons" } ∧
    validateQuery "CREATE SCHEMA x" =
      { valid := false, error := some "This operation is not allowed for safety reasons" } ∧
    validateQuery "GRANT ALL ON t TO u" =
      { valid := false, error := some "This operation is not allowed for safety reasons" } ∧
    validateQuery "ALTER ROLE admin" =
      { valid := false, error := some "This operation is not allowed for safety reasons" } ∧
    validateQuery "SELECT 1" = { valid := true } := by
  refine ⟨?_, by decide, by decide, by decide, by decide, by decide⟩
  intro q
  unfold validateQuery
  by_cases h1 : (cleanedQuery q).isEmpty
  · simp [h1]
  · by_cases h2 : blockedAtStart (cleanedQuery q) <;> simp [h1, h2]

/-! ## Claim C2 -/

/-- C2: `requiresPasswordVerification` has no UPDATE check at all:
`UPDATE t SET a=1` is an unscoped UPDATE (it contains no WHERE), yet the
function returns `null` — the claim's "unscoped ... UPDATE" is false. -/
theorem c2_counterexample :
    requiresPasswordVerification "UPDATE t SET a=1" = none ∧
    semiStatements "UPDATE t SET a=1" = ["UPDATE T SET A=1".toList] ∧
    containsCI "UPDATE T SET A=1".toList "WHERE".toList = false := by
  refine ⟨by decide, by decide, by decide⟩

theorem flatten_map_isEmpty {α β : Type} (f : α → List β) (l : List α) :
    ((l.map f).flatten).isEmpty = !(l.any fun a => !(f a).isEmpty) := by
  induction l with
  | nil => rfl
  | cons a t ih =>
    cases hfa : f a with
    | nil => simpa [hfa] using ih
    | cons b bs => simp [hfa]

/-- C2 (amended): `requiresPasswordVerification` returns a non-null
reason iff some `;`-separated statement of the cleaned script is a DROP
other than DROP INDEX, a TRUNCATE, a DELETE FROM without WHERE, or an
ALTER containing DROP; an unscoped UPDATE is never flagged.  It flags
`DELETE FROM t` but not `DELETE FROM t WHERE id=1`, and returns `null`
on `UPDATE t SET a=1`. -/
theorem c2_amended :
    (∀ q : String, (requiresPasswordVerification q).isSome =
      (semiStatements q).any (fun s => !(dangerOpsFor s).isEmpty)) ∧
    requiresPasswordVerification "DELETE FROM t" = some "DELETE without WHERE" ∧
    requiresPasswordVerification "DELETE FROM t WHERE id=1" = none ∧
    requiresPasswordVerification "UPDATE t SET a=1" = none := by
  refine ⟨?_, by decide, by decide, by decide⟩
  intro q
  simp only [requiresPasswordVerification, flatten_map_isEmpty]
  cases h : (semiStatements q).any (fun s => !(dangerOpsFor s).isEmpty) <;> simp [h]

/-! ## Claim C5 -/

/-- C5: `markAsCancelled` returns `false` and leaves the whole manager
state unchanged when no active resources are tracked for the id (already
finished or unknown) — in particular after termination; otherwise it sets
the shared cancelled flag on the active entry, sets the stored record's
status to cancelled with an `endTime`, and returns `true`. -/
theorem c5_markAsCancelled (st : MgrState) (id : String) (now : Nat) :
    (lookupA st.active id = none → markAsCancelled st id now = (false, st)) ∧
    (∀ ex, lookupA st.active id = some ex →
      (markAsCancelled st id now).1 = true ∧
      isCancelled (markAsCancelled st id now).2 id = true ∧
      (∀ r, lookupA st.results id = some r →
        lookupA (markAsCancelled st id now).2.results id =
          some { r with status := .cancelled, endTime := some now })) := by
  constructor
  · intro h
    simp [markAsCancelled, h]
  · intro ex hex
    refine ⟨?_, ?_, ?_⟩
    · cases h : lookupA st.results id <;> simp [markAsCancelled, hex, h]
    · cases h : lookupA st.results id <;>
        simp [markAsCancelled, hex, h, isCancelled, lookupA_setA_self]
    · intro r hr
      simp [markAsCancelled, hex, hr, lookupA_setA_self]

def c5RunningRec : ExecRecord :=
  { executionId := "e1", status := .running, startTime := 3 }

def c5ActiveEx : ActiveExec :=
  { executionId := "e1", clients := [("aws_db1", {})], startTime := 3
    cancelled := false }

def c5StActive : MgrState :=
  { active := [("e1", c5ActiveEx)], results := [("e1", c5RunningRec)] }

def c5StDone : MgrState :=
  { results := [("e1",
      { executionId := "e1", status := .completed, startTime := 3
        endTime := some 9 })] }

theorem c5_witness :
    markAsCancelled c5StDone "e1" 10 = (false, c5StDone) ∧
    (markAsCancelled c5StActive "e1" 10).1 = true ∧
    isCancelled (markAsCancelled c5StActive "e1" 10).2 "e1" = true ∧
    lookupA (markAsCancelled c5StActive "e1" 10).2.results "e1" =
      some { c5RunningRec with status := .cancelled, endTime := some 10 } := by
  have h1 := (c5_markAsCancelled c5StDone "e1" 10).1 (by decide)
  have h2 := (c5_markAsCancelled c5StActive "e1" 10).2 c5ActiveEx (by decide)
  exact ⟨h1, h2.1, h2.2.1, h2.2.2 c5RunningRec (by decide)⟩

/-! ## Claim C8 -/

/-- C8: once a record is cancelled, the status is sticky —
`completeExecution` afterwards only attaches the response and `endTime`
(status stays cancelled) and `failExecution` afterwards leaves the state
entirely unchanged; `failExecution` on a non-cancelled running record
sets failed plus the error message and `endTime`. -/
theorem c8_sticky_cancelled (st : MgrState) (id : String) (r : ExecRecord)
    (resp : QueryResponseM) (succ : Bool) (msg : String) (now : Nat)
    (h : lookupA st.results id = some r) :
    (r.status = .cancelled →
      lookupA (completeExecution st id resp succ now).results id =
        some { r with result := some resp, endTime := some now } ∧
      failExecution st id msg now = st) ∧
    (r.status = .running →
      lookupA (failExecution st id msg now).results id =
        some { r with status := .failed, error := some msg
                      endTime := some now }) := by
  constructor
  · intro hc
    constructor
    · simp [completeExecution, h, hc, lookupA_setA_self]
    · simp [failExecution, h, hc]
  · intro hr
    have hnc : ¬ r.status = .cancelled := by rw [hr]; intro hh; cases hh
    simp [failExecution, h, hnc, lookupA_setA_self]

def c8CancelledRec : ExecRecord :=
  { executionId := "e2", status := .cancelled, startTime := 1, endTime := some 4 }

def c8RunningRec : ExecRecord :=
  { executionId := "e3", status := .running, startTime := 2 }

def c8StCancelled : MgrState := { results := [("e2", c8CancelledRec)] }

def c8StRunning : MgrState := { results := [("e3", c8RunningRec)] }

def c8Resp : QueryResponseM := { id := "w", success := true }

theorem c8_witness :
    lookupA (completeExecution c8StCancelled "e2" c8Resp true 9).results "e2" =
      some { c8CancelledRec with result := some c8Resp, endTime := some 9 } ∧
    failExecution c8StCancelled "e2" "late error" 9 = c8StCancelled ∧
    lookupA (failExecution c8StRunning "e3" "boom" 9).results "e3" =
      some { c8RunningRec with status := .failed, error := some "boom"
                               endTime := some 9 } := by
  have h1 := (c8_sticky_cancelled c8StCancelled "e2" c8CancelledRec c8Resp
    true "late error" 9 (by decide)).1 (by decide)
  have h2 := (c8_sticky_cancelled c8StRunning "e3" c8RunningRec c8Resp
    true "boom" 9 (by decide)).2 (by decide)
  exact ⟨h1.1, h1.2, h2⟩

/-! ## Claims C7 and C10: orchestration-loop lemmas -/

/-- The outcome the orchestration loop records for one target: the
resolved result, or — when the per-target call throws — a synthetic
failure carrying the error message. -/
def cloudOutcome : CloudBehavior → DbResult
  | .succeeds r => r
  | .throwsErr m => { success := false, error := some m, duration_ms := 0 }

theorem runClouds_nocancel (beh : String → CloudBehavior) (cf : Nat → Bool)
    (hcf : ∀ i, cf i = false) (clouds : List String) :
    ∀ i acc succs, runClouds beh cf clouds i acc succs =
      (clouds.foldl (fun a c => setA a c (cloudOutcome (beh c))) acc,
       succs ++ clouds.map (fun c => (cloudOutcome (beh c)).success)) := by
  induction clouds with
  | nil => intro i acc succs; simp [runClouds]
  | cons c rest ih =>
    intro i acc succs
    cases hb : beh c with
    | succeeds r => simp [runClouds, hcf i, hb, ih, cloudOutcome]
    | throwsErr m => simp [runClouds, hcf i, hb, ih, cloudOutcome]

theorem lookupA_foldl_setA (clouds : List String) (f : String → DbResult) :
    ∀ (acc : List (String × DbResult)) (c : String),
      (c ∈ clouds ∨ (lookupA acc c).isSome = true) →
      (lookupA (clouds.foldl (fun a cl => setA a cl (f cl)) acc) c).isSome = true := by
  induction clouds with
  | nil =>
    intro acc c h
    rcases h with h | h
    · simp at h
    · simpa using h
  | cons c0 rest ih =>
    intro acc c h
    simp only [List.foldl_cons]
    apply ih
    by_cases hc : c = c0
    · right; subst hc; rw [lookupA_setA_self]; rfl
    · rcases h with h | h
      · rcases List.mem_cons.mp h with h' | h'
        · exact absurd h' hc
        · exact Or.inl h'
      · right
        rw [lookupA_setA_ne acc c0 c _ (fun he => hc he.symm)]
        exact h

/-! ## Claim C7 -/

def c7Beh : String → CloudBehavior := fun c =>
  if c = "gcp" then .succeeds { success := true, duration_ms := 7 }
  else .throwsErr "target crashed"

/-- C7: with no cancellation, the aggregated overall success is true iff
at least one target was invoked and every invoked target's recorded
outcome succeeded; every invoked target gets an entry in the response; a
thrown per-target exception is recorded as that target's failure.  In
"all targets" mode with one throwing and one succeeding target, overall
success is false and both outcomes are present. -/
theorem c7_aggregation (clouds : List String) (beh : String → CloudBehavior) :
    ((executeAsyncLoop clouds beh (fun _ => false)).success = true ↔
      clouds ≠ [] ∧ ∀ c ∈ clouds, (cloudOutcome (beh c)).success = true) ∧
    (∀ c ∈ clouds,
      (lookupA (executeAsyncLoop clouds beh (fun _ => false)).entries c).isSome
        = true) ∧
    (executeAsyncLoop (cloudsForMode "aws" ["gcp"] "both") c7Beh
      (fun _ => false)).success = false ∧
    lookupA (executeAsyncLoop (cloudsForMode "aws" ["gcp"] "both") c7Beh
      (fun _ => false)).entries "aws" =
      some { success := false, error := some "target crashed", duration_ms := 0 } ∧
    lookupA (executeAsyncLoop (cloudsForMode "aws" ["gcp"] "both") c7Beh
      (fun _ => false)).entries "gcp" =
      some { success := true, duration_ms := 7 } := by
  refine ⟨?_, ?_, by decide, by decide, by decide⟩
  · simp only [executeAsyncLoop,
      runClouds_nocancel beh (fun _ => false) (fun _ => rfl) clouds 0 [] []]
    simp only [List.nil_append]
    constructor
    · intro h
      have hlen := (Bool.and_eq_true _ _).mp h
      have h1 : 0 < clouds.length := by
        have := hlen.1; simpa using this
      have h2 := hlen.2
      refine ⟨List.length_pos.mp h1, ?_⟩
      intro c hc
      have := List.all_eq_true.mp h2
      have hm : (cloudOutcome (beh c)).success ∈
          clouds.map (fun c => (cloudOutcome (beh c)).success) :=
        List.mem_map_of_mem _ hc
      simpa using this _ hm
    · rintro ⟨hne, hall⟩
      have h1 : 0 < clouds.length := List.length_pos.mpr hne
      apply (Bool.and_eq_true _ _).mpr
      constructor
      · simpa using h1
      · apply List.all_eq_true.mpr
        intro b hb
        rcases List.mem_map.mp hb with ⟨c, hc, rfl⟩
        simpa using hall c hc
  · intro c hc
    simp only [executeAsyncLoop,
      runClouds_nocancel beh (fun _ => false) (fun _ => rfl) clouds 0 [] []]
    exact lookupA_foldl_setA clouds _ [] c (Or.inl hc)

theorem c7_witness :
    (executeAsyncLoop ["gcp"] c7Beh (fun _ => false)).success = true ∧
    (executeAsyncLoop [] c7Beh (fun _ => false)).success = false ∧
    (lookupA (executeAsyncLoop ["aws", "gcp"] c7Beh
      (fun _ => false)).entries "aws").isSome = true := by
  refine ⟨?_, ?_, ?_⟩
  · exact (c7_aggregation ["gcp"] c7Beh).1.mpr ⟨by decide, by decide⟩
  · have h := (c7_aggregation [] c7Beh).1
    cases hs : (executeAsyncLoop [] c7Beh (fun _ => false)).success
    · rfl
    · exact absurd (h.mp hs).1 (by simp)
  · exact (c7_aggregation ["aws", "gcp"] c7Beh).2.1 "aws" (by simp)

/-! ## Claim C10 -/

/-- C10: `isCancelled` reads only the active-execution map, so it is
`false` for any id without an active entry — even when that id's stored
record has status cancelled; after `releaseClient` removes the last
client of an execution the whole active entry is gone, so the
cancellation flag is no longer observable, and the orchestration loop's
between-target check (which consults `isCancelled`) lets every remaining
target run. -/
theorem c10_flag_lost (st : MgrState) (id : String)
    (clouds : List String) (beh : String → CloudBehavior) :
    (lookupA st.active id = none → isCancelled st id = false) ∧
    (∀ ex key cl, lookupA st.active id = some ex → ex.clients = [(key, cl)] →
      lookupA (releaseClient st id key).active id = none ∧
      isCancelled (releaseClient st id key) id = false) ∧
    (lookupA st.active id = none → ∀ c ∈ clouds,
      (lookupA (executeAsyncLoop clouds beh
        (fun _ => isCancelled st id)).entries c).isSome = true) := by
  refine ⟨?_, ?_, ?_⟩
  · intro h; simp [isCancelled, h]
  · intro ex key cl hex hcl
    have herase : eraseA ex.clients key = [] := by
      rw [hcl]; simp [eraseA]
    constructor
    · simp [releaseClient, hex, herase, lookupA_eraseA_self]
    · simp [isCancelled, releaseClient, hex, herase, lookupA_eraseA_self]
  · intro h c hc
    have hcf : ∀ i : Nat, isCancelled st id = false := fun _ => by
      simp [isCancelled, h]
    simp only [executeAsyncLoop,
      runClouds_nocancel beh _ hcf clouds 0 [] []]
    exact lookupA_foldl_setA clouds _ [] c (Or.inl hc)

def c10Ex : ActiveExec :=
  { executionId := "e9", clients := [("aws_db1", {})], startTime := 0
    cancelled := true }

def c10St : MgrState :=
  { active := [("e9", c10Ex)]
    results := [("e9",
      { executionId := "e9", status := .cancelled, startTime := 0
        endTime := some 5 })] }

def c10Beh : String → CloudBehavior := fun _ => .succeeds { success := true }

theorem c10_witness :
    isCancelled c10St "e9" = true ∧
    lookupA (releaseClient c10St "e9" "aws_db1").active "e9" = none ∧
    isCancelled (releaseClient c10St "e9" "aws_db1") "e9" = false ∧
    (lookupA (executeAsyncLoop ["aws", "gcp"] c10Beh
      (fun _ => isCancelled (releaseClient c10St "e9" "aws_db1") "e9")).entries
      "gcp").isSome = true := by
  have h1 := (c10_flag_lost c10St "e9" [] c10Beh).2.1 c10Ex "aws_db1" {}
    (by decide) (by decide)
  have h2 := (c10_flag_lost (releaseClient c10St "e9" "aws_db1") "e9"
    ["aws", "gcp"] c10Beh).2.2 h1.1 "gcp" (by simp)
  exact ⟨by decide, h1.1, h1.2, h2⟩

/-! ## Claim C3 -/

def c3Env : DbEnv :=
  { query := fun s =>
      if s = "SELECT pg_sleep(600)" then
        .ok { command := "SELECT", rowCount := some 1 } 5000
      else .ok {} 1 }

/-- C3: a single-statement execution with a `pgSchema` runs the statement
by plain `client.query` with no timeout protection: here the statement
takes 5000ms against a 1000ms timeout, yet the outcome is the statement's
own success, no timeout failure is reported and no cancellation is
triggered — refuting "every single-statement execution ... is run under
the per-request timeout". -/
theorem c3_counterexample :
    splitStatements "SELECT pg_sleep(600)" = ["SELECT pg_sleep(600)"] ∧
    1000 < durationOf (c3Env.query "SELECT pg_sleep(600)") ∧
    (executeOnDatabase c3Env {} 0 "aws" "db1" "SELECT pg_sleep(600)" 1000
      300000 (some "public") false (some "e1")).outcome =
      .ok { success := true
            result := some { command := "SELECT", rowCount := some 1 }
            duration_ms := 5001 } ∧
    ExecEvent.cancelTriggered "e1" ∉
      (executeOnDatabase c3Env {} 0 "aws" "db1" "SELECT pg_sleep(600)" 1000
        300000 (some "public") false (some "e1")).events := by
  refine ⟨by decide, by decide, by decide, by decide⟩

/-- C3 (amended): a single-statement execution *without* a `pgSchema`
runs through `executeWithTimeout`: when the statement's duration exceeds
the per-request timeout, `markAsCancelled` is triggered for the execution
id and the outcome is a failure whose error reports the timeout.  (With a
`pgSchema`, the single statement runs with no timeout.) -/
theorem c3_amended (env : DbEnv) (mgr : MgrState) (t0 : Nat)
    (cloud db q s : String) (timeout stmtT : Nat) (cont : Bool) (i : String)
    (hpool : env.poolFound = true)
    (hs : splitStatements q = [s])
    (hd : timeout < durationOf (env.query q)) :
    executeOnDatabase env mgr t0 cloud db q timeout stmtT none cont (some i) =
      { outcome := .ok { success := false, error := some (timeoutMsg timeout)
                         duration_ms := timeout }
        mgr := (markAsCancelled mgr i (t0 + timeout)).2
        events := [ExecEvent.queryIssued q, ExecEvent.cancelTriggered i]
        clock := t0 + timeout } := by
  simp [executeOnDatabase, hpool, hs, hd]

theorem c3_witness :
    1000 < durationOf (c3Env.query "SELECT pg_sleep(600)") ∧
    executeOnDatabase c3Env {} 0 "aws" "db1" "SELECT pg_sleep(600)" 1000
      300000 none false (some "e1") =
      { outcome := .ok { success := false, error := some (timeoutMsg 1000)
                         duration_ms := 1000 }
        mgr := (markAsCancelled {} "e1" (0 + 1000)).2
        events := [ExecEvent.queryIssued "SELECT pg_sleep(600)",
                   ExecEvent.cancelTriggered "e1"]
        clock := 0 + 1000 } := by
  refine ⟨by decide, ?_⟩
  exact c3_amended c3Env {} 0 "aws" "db1" "SELECT pg_sleep(600)"
    "SELECT pg_sleep(600)" 1000 300000 false "e1" rfl (by decide) (by decide)

/-! ## Claim C9 -/

def c9Env : DbEnv :=
  { pidRes := .error "Connection terminated unexpectedly"
    query := fun _ => .ok {} 1 }

/-- C9 (code bug): in the `pgSchema` path the backend-pid capture query
runs after `pool.connect()` but before the `try` whose `finally` releases
the client; when it throws, the outer catch reports the failure but the
connection is never released and nothing is deregistered — the events of
the run contain the acquisition and no release. -/
theorem c9_connection_leak :
    (executeOnDatabase c9Env {} 0 "aws" "db1" "SELECT 1" 1000 300000
      (some "public") false (some "e1")).events = [ExecEvent.connected] ∧
    ExecEvent.released ∉
      (executeOnDatabase c9Env {} 0 "aws" "db1" "SELECT 1" 1000 300000
        (some "public") false (some "e1")).events ∧
    (executeOnDatabase c9Env {} 0 "aws" "db1" "SELECT 1" 1000 300000
      (some "public") false (some "e1")).outcome =
      .ok { success := false
            error := some "Connection terminated unexpectedly"
            duration_ms := 0 } := by
  refine ⟨by decide, by decide, by decide⟩

/-! ## Claim C4 -/

theorem isCancelled_updateProgress (st : MgrState) (i id : String)
    (a b : Nat) (txt : Option String) :
    isCancelled (updateProgress st i a b txt) id = isCancelled st id := by
  unfold updateProgress
  cases lookupA st.results i <;> rfl

theorem itx_begin : isTransactionStatement "BEGIN;" = true := by decide

theorem itx_update :
    isTransactionStatement "UPDATE t SET x=1 WHERE id=1;" = false := by decide

theorem itx_select : isTransactionStatement "SELECT 1/0;" = false := by decide

theorem txAfter_begin (c : Bool) : txAfter "BEGIN;" c = true := by
  cases c <;> decide

theorem txAfter_not (s : String) (h : isTransactionStatement s = false)
    (c : Bool) : txAfter s c = c := by
  simp [txAfter, h]

/-- C4: in a multi-statement run `BEGIN; UPDATE ...; SELECT 1/0; COMMIT;`
where the UPDATE succeeds and the SELECT fails inside the transaction
opened by BEGIN, the executor records the BEGIN and UPDATE successes and
the SELECT failure, auto-issues ROLLBACK and appends its own (successful)
entry, reports overall target success = false, and — since
`continueOnError` is false — stops before COMMIT, which is never issued
to the database. -/
theorem c4_transaction_rollback (env : DbEnv) (mgr : MgrState)
    (t0 stmtT : Nat) (i : String) (r1 r2 rR : QRes) (m : String)
    (d1 d2 d3 d4 : Nat)
    (hB : env.query "BEGIN;" = .ok r1 d1) (hd1 : d1 ≤ stmtT)
    (hU : env.query "UPDATE t SET x=1 WHERE id=1;" = .ok r2 d2)
    (hd2 : d2 ≤ stmtT)
    (hS : env.query "SELECT 1/0;" = .fails m d3) (hd3 : d3 ≤ stmtT)
    (hR : env.query "ROLLBACK" = .ok rR d4)
    (hC : isCancelled mgr i = false) :
    (executeMultipleStatementsM env stmtT (some i) false
      ["BEGIN;", "UPDATE t SET x=1 WHERE id=1;", "SELECT 1/0;", "COMMIT;"]
      mgr t0 t0 []).res.success = false ∧
    (executeMultipleStatementsM env stmtT (some i) false
      ["BEGIN;", "UPDATE t SET x=1 WHERE id=1;", "SELECT 1/0;", "COMMIT;"]
      mgr t0 t0 []).res.results = some
      [{ statement := "BEGIN;", success := true, result := some r1
         rowsAffected := some (r1.rowCount.getD 0) },
       { statement := "UPDATE t SET x=1 WHERE id=1;", success := true
         result := some r2, rowsAffected := some (r2.rowCount.getD 0) },
       { statement := "SELECT 1/0;", success := false, error := some m },
       { statement := "ROLLBACK (auto)", success := true
         rowsAffected := some 0 }] ∧
    (executeMultipleStatementsM env stmtT (some i) false
      ["BEGIN;", "UPDATE t SET x=1 WHERE id=1;", "SELECT 1/0;", "COMMIT;"]
      mgr t0 t0 []).events =
      [ExecEvent.queryIssued "BEGIN;",
       ExecEvent.queryIssued "UPDATE t SET x=1 WHERE id=1;",
       ExecEvent.queryIssued "SELECT 1/0;",
       ExecEvent.queryIssued "ROLLBACK"] ∧
    ExecEvent.queryIssued "COMMIT;" ∉
      (executeMultipleStatementsM env stmtT (some i) false
        ["BEGIN;", "UPDATE t SET x=1 WHERE id=1;", "SELECT 1/0;", "COMMIT;"]
        mgr t0 t0 []).events := by
  have h1 : ¬ (stmtT < d1) := by omega
  have h2 : ¬ (stmtT < d2) := by omega
  have h3 : ¬ (stmtT < d3) := by omega
  simp [executeMultipleStatementsM, runStmts, hB, hU, hS, hR, h1, h2, h3,
    durationOf, isCancelled_updateProgress, hC, progressAfter,
    txAfter_begin, txAfter_not _ itx_update, txAfter_not _ itx_select,
    itx_begin, itx_update, itx_select]

def c4Env : DbEnv :=
  { query := fun s =>
      if s = "SELECT 1/0;" then .fails "division by zero" 2
      else .ok { command := "X", rowCount := some 1 } 1 }

theorem c4_witness :
    (executeMultipleStatementsM c4Env 300000 (some "e1") false
      ["BEGIN;", "UPDATE t SET x=1 WHERE id=1;", "SELECT 1/0;", "COMMIT;"]
      {} 0 0 []).res.success = false ∧
    ExecEvent.queryIssued "COMMIT;" ∉
      (executeMultipleStatementsM c4Env 300000 (some "e1") false
        ["BEGIN;", "UPDATE t SET x=1 WHERE id=1;", "SELECT 1/0;", "COMMIT;"]
        {} 0 0 []).events := by
  have h := c4_transaction_rollback c4Env {} 0 300000 "e1"
    { command := "X", rowCount := some 1 } { command := "X", rowCount := some 1 }
    { command := "X", rowCount := some 1 } "division by zero" 1 1 2 1
    (by decide) (by decide) (by decide) (by decide) (by decide) (by decide)
    (by decide) (by decide)
  exact ⟨h.1, h.2.2.2⟩

/-! ## Claim C6

The sequential eviction scenario: executions numbered `1, 2, ...` each
`begin` (`initializeExecution`, at time `2*i`) and complete
(`completeExecution`, at time `2*i + 1`) before the next begins, under an
arbitrary injective id assignment (fresh uuids). -/

def scenarioResp : QueryResponseM := { id := "r", success := true }

/-- The stored record of scenario execution `i` after it completes. -/
def scenarioRec (ids : Nat → String) (i : Nat) : ExecRecord :=
  { executionId := ids i, status := .completed, result := some scenarioResp
    progress := some { currentStatement := 0, totalStatements := 0 }
    startTime := 2 * i, endTime := some (2 * i + 1) }

/-- After `m` sequential rounds with cap `cap`, the store holds the
`min m cap` most recent records: executions `m + 1 - min m cap .. m`. -/
def expectedResults (cap : Nat) (ids : Nat → String) (m : Nat) :
    List (String × ExecRecord) :=
  (List.range' (m + 1 - min m cap) (min m cap)).map
    (fun i => (ids i, scenarioRec ids i))

def seqStep (ids : Nat → String) (st : MgrState) (i : Nat) : MgrState :=
  completeExecution (initializeExecution st (ids i) none (2 * i)) (ids i)
    scenarioResp true (2 * i + 1)

def seqRun (cap : Nat) (ids : Nat → String) (n : Nat) : MgrState :=
  (List.range n).foldl (fun st j => seqStep ids st (j + 1))
    { maxResultsSize := cap }

theorem insSorted_all_le (x : String × ExecRecord)
    (l : List (String × ExecRecord)) (h : ∀ y ∈ l, evictLe y.2 x.2 = true) :
    insSorted x l = l ++ [x] := by
  induction l with
  | nil => rfl
  | cons y t ih =>
    simp only [insSorted, h y (by simp), if_pos]
    rw [ih (fun z hz => h z (by simp [hz]))]
    simp

theorem foldl_insSorted_eq (l : List (String × ExecRecord)) :
    ∀ acc, (∀ y ∈ acc, ∀ x ∈ l, evictLe y.2 x.2 = true) →
      l.Pairwise (fun a b => evictLe a.2 b.2 = true) →
      l.foldl (fun a x => insSorted x a) acc = acc ++ l := by
  induction l with
  | nil => intro acc _ _; simp
  | cons x t ih =>
    intro acc hcross hp
    simp only [List.foldl_cons]
    rw [insSorted_all_le x acc (fun y hy => hcross y hy x (by simp))]
    rw [ih (acc ++ [x]) ?_ (List.pairwise_cons.mp hp).2]
    · simp
    · intro y hy z hz
      rcases List.mem_append.mp hy with h | h
      · exact hcross y h z (by simp [hz])
      · simp only [List.mem_singleton] at h
        subst h
        exact (List.pairwise_cons.mp hp).1 z hz

theorem sortForEviction_sorted (l : List (String × ExecRecord))
    (h : l.Pairwise (fun a b => evictLe a.2 b.2 = true)) :
    sortForEviction l = l := by
  unfold sortForEviction
  simpa using foldl_insSorted_eq l [] (by simp) h

theorem mem_insSorted (a x : String × ExecRecord)
    (l : List (String × ExecRecord)) :
    a ∈ insSorted x l → a = x ∨ a ∈ l := by
  induction l with
  | nil => intro h; simpa [insSorted] using h
  | cons y t ih =>
    intro h
    unfold insSorted at h
    by_cases hc : evictLe y.2 x.2 = true
    · rw [if_pos hc] at h
      rcases List.mem_cons.mp h with rfl | h'
      · exact Or.inr (by simp)
      · rcases ih h' with h'' | h''
        · exact Or.inl h''
        · exact Or.inr (by simp [h''])
    · rw [if_neg hc] at h
      rcases List.mem_cons.mp h with rfl | h'
      · exact Or.inl rfl
      · exact Or.inr h'

theorem mem_foldl_insSorted (l : List (String × ExecRecord)) :
    ∀ acc a, a ∈ l.foldl (fun ac x => insSorted x ac) acc →
      a ∈ acc ∨ a ∈ l := by
  induction l with
  | nil => intro acc a h; exact Or.inl h
  | cons x t ih =>
    intro acc a h
    simp only [List.foldl_cons] at h
    rcases ih (insSorted x acc) a h with h' | h'
    · rcases mem_insSorted a x acc h' with h'' | h''
      · exact Or.inr (by simp [h''])
      · exact Or.inl h''
    · exact Or.inr (by simp [h'])

theorem mem_sortForEviction (l : List (String × ExecRecord))
    (a : String × ExecRecord) (h : a ∈ sortForEviction l) : a ∈ l := by
  rcases mem_foldl_insSorted l [] a h with h' | h'
  · cases h'
  · exact h'

theorem lookupA_of_mem_nodup {α : Type} (l : List (String × α))
    (e : String × α) (hnd : (l.map Prod.fst).Nodup) (he : e ∈ l) :
    lookupA l e.1 = some e.2 := by
  induction l with
  | nil => cases he
  | cons f t ih =>
    rw [List.map_cons, List.nodup_cons] at hnd
    rcases List.mem_cons.mp he with rfl | hm
    · simp [lookupA]
    · have hne : f.1 ≠ e.1 := by
        intro hEq
        exact hnd.1 (hEq ▸ List.mem_map_of_mem Prod.fst hm)
      simp [lookupA, hne, ih hnd.2 hm]

/-- Running records (no `endTime`) are never removed, neither by the
size-cap eviction of `begin()` nor by the periodic age sweep. -/
theorem running_not_evicted (st : MgrState) (now : Nat) (id : String)
    (r : ExecRecord) (hnd : (st.results.map Prod.fst).Nodup)
    (h : lookupA st.results id = some r) (hrun : r.endTime = none) :
    lookupA (enforceMaxSize st).results id = some r ∧
    lookupA (cleanup st now).results id = some r := by
  constructor
  · unfold enforceMaxSize
    by_cases hlen : st.results.length ≤ st.maxResultsSize
    · simp [hlen, h]
    · simp only [hlen, if_false]
      apply lookupA_filter_keep _ _ _ _ h
      have hvic : id ∉
          ((((sortForEviction st.results).take
              (st.results.length - st.maxResultsSize)).filter
                (fun e => e.2.endTime.isSome)).map (·.1)) := by
        intro hcon
        rcases List.mem_map.mp hcon with ⟨e, he, heq⟩
        have hmem : e ∈ st.results :=
          mem_sortForEviction _ _ (List.take_subset _ _ (List.mem_of_mem_filter he))
        have hl := lookupA_of_mem_nodup st.results e hnd hmem
        rw [heq, h] at hl
        have he2 : e.2 = r := by
          injection hl with hv
          exact hv.symm
        have hf := (List.mem_filter.mp he).2
        rw [he2, hrun] at hf
        simp at hf
      simp [hvic]
  · unfold cleanup
    apply lookupA_filter_keep _ _ _ _ h
    simp [hrun]

/-- The fresh record written by `initializeExecution` for execution `i`
of the scenario. -/
def initRec (ids : Nat → String) (i : Nat) : ExecRecord :=
  { executionId := ids i, status := .running, startTime := 2 * i
    progress := some { currentStatement := 0, totalStatements := 0 } }

theorem range'_concat' (s n : Nat) :
    List.range' s (n + 1) = List.range' s n ++ [s + n] := by
  have := @List.range'_concat 1 s n
  simpa using this

theorem length_expectedResults (cap : Nat) (ids : Nat → String) (m : Nat) :
    (expectedResults cap ids m).length = min m cap := by
  simp [expectedResults]

theorem mem_expectedResults (cap : Nat) (ids : Nat → String) (m : Nat)
    (e : String × ExecRecord) (he : e ∈ expectedResults cap ids m) :
    ∃ i, i ≤ m ∧ e = (ids i, scenarioRec ids i) := by
  rcases List.mem_map.mp he with ⟨i, hi, rfl⟩
  rcases List.mem_range'_1.mp hi with ⟨h1, h2⟩
  exact ⟨i, by omega, rfl⟩

theorem lookupA_expected_none (cap : Nat) (ids : Nat → String) (m : Nat)
    (hinj : ∀ a b, ids a = ids b → a = b) (j : Nat) (hj : m < j) :
    lookupA (expectedResults cap ids m) (ids j) = none := by
  apply lookupA_eq_none_of_keys
  intro e he
  rcases mem_expectedResults cap ids m e he with ⟨i, hi, rfl⟩
  intro hEq
  have := hinj i j hEq
  omega

theorem pairwise_expected (cap : Nat) (ids : Nat → String) (m : Nat) :
    (expectedResults cap ids m).Pairwise (fun a b => evictLe a.2 b.2 = true) := by
  unfold expectedResults
  rw [List.pairwise_map]
  apply (List.pairwise_lt_range' _ _).imp
  intro i j hij
  simp only [scenarioRec, evictLe]
  simp
  omega

theorem pairwise_expected_running (cap : Nat) (ids : Nat → String)
    (m j : Nat) :
    (expectedResults cap ids m ++ [(ids j, initRec ids j)]).Pairwise
      (fun a b => evictLe a.2 b.2 = true) := by
  rw [List.pairwise_append]
  refine ⟨pairwise_expected cap ids m, by simp, ?_⟩
  intro a ha b hb
  rcases mem_expectedResults cap ids m a ha with ⟨i, _, rfl⟩
  simp only [List.mem_singleton] at hb
  subst hb
  simp [scenarioRec, initRec, evictLe]

theorem complete_append (F : List (String × ExecRecord)) (ids : Nat → String)
    (j : Nat) (hF : ∀ e ∈ F, e.1 ≠ ids j) (st : MgrState)
    (hres : st.results = F ++ [(ids j, initRec ids j)]) :
    (completeExecution st (ids j) scenarioResp true (2 * j + 1)).results =
      F ++ [(ids j, scenarioRec ids j)] ∧
    (completeExecution st (ids j) scenarioResp true (2 * j + 1)).active =
      st.active ∧
    (completeExecution st (ids j) scenarioResp true (2 * j + 1)).maxResultsSize
      = st.maxResultsSize := by
  have hnoneF : lookupA F (ids j) = none := lookupA_eq_none_of_keys F _ hF
  have hlook : lookupA st.results (ids j) = some (initRec ids j) := by
    rw [hres, lookupA_append_none _ _ _ hnoneF]
    simp [lookupA]
  unfold completeExecution
  rw [hlook]
  refine ⟨?_, rfl, rfl⟩
  show setA st.results (ids j) _ = _
  rw [hres, setA_append_none _ _ _ _ hnoneF]
  simp [setA, initRec, scenarioRec]

/-- The tail of the expected store kept after one eviction. -/
def keptTail (ids : Nat → String) (lo c : Nat) : List (String × ExecRecord) :=
  (List.range' (lo + 1) c).map (fun i => (ids i, scenarioRec ids i))

/-- `enforceMaxSize` on a store one over the cap whose entries are
sorted (terminals ascending by `endTime`, one running record last)
removes exactly the oldest terminal record. -/
theorem enforceMaxSize_overflow (st : MgrState)
    (E : List (String × ExecRecord)) (k0 kN : String) (r0 rN : ExecRecord)
    (hres : st.results = (k0, r0) :: E ++ [(kN, rN)])
    (hmax : st.maxResultsSize = E.length + 1)
    (hpw : ((k0, r0) :: E ++ [(kN, rN)]).Pairwise
      (fun a b => evictLe a.2 b.2 = true))
    (h0 : r0.endTime.isSome = true)
    (hkeys : ∀ e ∈ E ++ [(kN, rN)], e.1 ≠ k0) :
    enforceMaxSize st = { st with results := E ++ [(kN, rN)] } := by
  unfold enforceMaxSize
  rw [hres, hmax]
  rw [if_neg (by simp)]
  rw [sortForEviction_sorted _ hpw]
  have htr : ((k0, r0) :: E ++ [(kN, rN)]).length - (E.length + 1) = 1 := by
    simp
  rw [htr]
  have htk : List.take 1 ((k0, r0) :: E ++ [(kN, rN)]) = [(k0, r0)] := by simp
  have hfl : List.filter (fun e => e.2.endTime.isSome) [(k0, r0)] =
      [(k0, r0)] := by simp [h0]
  have hfinal : List.filter (fun e => !(decide (e.1 ∈ [k0])))
      ((k0, r0) :: E ++ [(kN, rN)]) = E ++ [(kN, rN)] := by
    have hstep : List.filter (fun e => !(decide (e.1 ∈ [k0])))
        ((k0, r0) :: E ++ [(kN, rN)]) =
        List.filter (fun e => !(decide (e.1 ∈ [k0]))) (E ++ [(kN, rN)]) := by
      simp
    rw [hstep]
    apply List.filter_eq_self.mpr
    intro e he
    have hne : e.1 ≠ k0 := hkeys e he
    simp [hne]
  simp only [htk, hfl, List.map_cons, List.map_nil, hfinal]

/-- One sequential round preserves the expected-store invariant:
eviction happens (only) when the store is over the cap, and removes
exactly the oldest terminal record. -/
theorem seqStep_expected (cap : Nat) (hcap : 1 ≤ cap) (ids : Nat → String)
    (hinj : ∀ a b, ids a = ids b → a = b) (m : Nat) (st : MgrState)
    (hres : st.results = expectedResults cap ids m)
    (hact : st.active = []) (hmax : st.maxResultsSize = cap) :
    (seqStep ids st (m + 1)).results = expectedResults cap ids (m + 1) ∧
    (seqStep ids st (m + 1)).active = [] ∧
    (seqStep ids st (m + 1)).maxResultsSize = cap := by
  have hnone := lookupA_expected_none cap ids m hinj (m + 1) (by omega)
  have hinit : initializeExecution st (ids (m + 1)) none (2 * (m + 1)) = enforceMaxSize { st with results := expectedResults cap ids m ++ [(ids (m + 1), initRec ids (m + 1))] } := by
    unfold initializeExecution
    rw [hres, setA_eq_append _ _ _ hnone]
    rfl
  by_cases hm : m < cap
  -- no eviction: the store stays at or below the cap
  · have hlen : (expectedResults cap ids m ++ [(ids (m + 1), initRec ids (m + 1))]).length ≤ cap := by
      simp [length_expectedResults]
      omega
    have henf : enforceMaxSize { st with results := expectedResults cap ids m ++ [(ids (m + 1), initRec ids (m + 1))] } = { st with results := expectedResults cap ids m ++ [(ids (m + 1), initRec ids (m + 1))] } := by
      unfold enforceMaxSize
      rw [if_pos]
      simpa [hmax] using hlen
    have hkeys : ∀ e ∈ expectedResults cap ids m, e.1 ≠ ids (m + 1) := by
      intro e he
      rcases mem_expectedResults cap ids m e he with ⟨i, hi, rfl⟩
      intro hEq
      have := hinj i (m + 1) hEq
      omega
    unfold seqStep
    rw [hinit, henf]
    have hcomp := complete_append (expectedResults cap ids m) ids (m + 1)
      hkeys { st with results := expectedResults cap ids m ++ [(ids (m + 1), initRec ids (m + 1))] } rfl
    refine ⟨?_, by rw [hcomp.2.1]; exact hact, by rw [hcomp.2.2]; exact hmax⟩
    rw [hcomp.1]
    -- expectedResults grows by one at the end while under the cap
    unfold expectedResults
    have h1 : min m cap = m := by omega
    have h2 : min (m + 1) cap = m + 1 := by omega
    rw [h1, h2]
    have h3 : m + 1 - m = 1 := by omega
    have h4 : m + 1 + 1 - (m + 1) = 1 := by omega
    rw [h3, h4, range'_concat' 1 m, List.map_append]
    simp [Nat.add_comm]
  -- eviction: the oldest terminal record is removed
  · have hcm : cap ≤ m := by omega
    have hminc : min m cap = cap := by omega
    obtain ⟨c, hc⟩ : ∃ c, cap = c + 1 := ⟨cap - 1, by omega⟩
    -- destructure the expected store: oldest record first
    have hE : expectedResults cap ids m = (ids (m + 1 - cap), scenarioRec ids (m + 1 - cap)) :: keptTail ids (m + 1 - cap) c := by
      unfold expectedResults keptTail
      rw [hminc, hc, List.range'_succ]
      simp
    have hkeysTail : ∀ e ∈ keptTail ids (m + 1 - cap) c ++ [(ids (m + 1), initRec ids (m + 1))], e.1 ≠ ids (m + 1 - cap) := by
      intro e he
      rcases List.mem_append.mp he with h | h
      · unfold keptTail at h
        rcases List.mem_map.mp h with ⟨i, hi, heq⟩
        subst heq
        rcases List.mem_range'_1.mp hi with ⟨h1, _⟩
        intro hEq
        have := hinj i (m + 1 - cap) hEq
        omega
      · simp only [List.mem_singleton] at h
        subst h
        intro hEq
        have := hinj (m + 1) (m + 1 - cap) hEq
        omega
    have hlenT : (keptTail ids (m + 1 - cap) c).length + 1 = cap := by
      simp [keptTail, hc]
    have hpw : ((ids (m + 1 - cap), scenarioRec ids (m + 1 - cap)) :: keptTail ids (m + 1 - cap) c ++ [(ids (m + 1), initRec ids (m + 1))]).Pairwise (fun a b => evictLe a.2 b.2 = true) := by
      have hh := pairwise_expected_running cap ids m (m + 1)
      rw [hE] at hh
      simpa using hh
    have henf : enforceMaxSize { st with results := expectedResults cap ids m ++ [(ids (m + 1), initRec ids (m + 1))] } = { st with results := keptTail ids (m + 1 - cap) c ++ [(ids (m + 1), initRec ids (m + 1))] } := by
      have hh := enforceMaxSize_overflow { st with results := expectedResults cap ids m ++ [(ids (m + 1), initRec ids (m + 1))] } (keptTail ids (m + 1 - cap) c) (ids (m + 1 - cap)) (ids (m + 1)) (scenarioRec ids (m + 1 - cap)) (initRec ids (m + 1)) (by simp [hE]) (by simpa [hmax] using hlenT.symm) hpw (by simp [scenarioRec]) hkeysTail
      simpa using hh
    unfold seqStep
    rw [hinit, henf]
    have hkeysT2 : ∀ e ∈ keptTail ids (m + 1 - cap) c, e.1 ≠ ids (m + 1) := by
      intro e he
      unfold keptTail at he
      rcases List.mem_map.mp he with ⟨i, hi, heq⟩
      subst heq
      rcases List.mem_range'_1.mp hi with ⟨_, h2⟩
      intro hEq
      have := hinj i (m + 1) hEq
      omega
    have hcomp := complete_append (keptTail ids (m + 1 - cap) c) ids (m + 1)
      hkeysT2 { st with results := keptTail ids (m + 1 - cap) c ++ [(ids (m + 1), initRec ids (m + 1))] } rfl
    refine ⟨?_, by rw [hcomp.2.1]; exact hact, by rw [hcomp.2.2]; exact hmax⟩
    rw [hcomp.1]
    -- the kept tail plus the new record is the next expected store
    unfold expectedResults keptTail
    have h2 : min (m + 1) cap = cap := by omega
    rw [h2, hc, range'_concat' (m + 1 + 1 - (c + 1)) c, List.map_append]
    have h5 : m + 1 + 1 - (c + 1) = m + 1 - cap + 1 := by omega
    have h6 : m + 1 + 1 - (c + 1) + c = m + 1 := by omega
    rw [h6, h5]
    simp [hc]

theorem seqRun_invariant (cap : Nat) (hcap : 1 ≤ cap) (ids : Nat → String)
    (hinj : ∀ a b, ids a = ids b → a = b) (m : Nat) :
    (seqRun cap ids m).results = expectedResults cap ids m ∧
    (seqRun cap ids m).active = [] ∧
    (seqRun cap ids m).maxResultsSize = cap := by
  induction m with
  | zero =>
    refine ⟨?_, rfl, rfl⟩
    simp [seqRun, expectedResults]
  | succ m ih =>
    have hstep : seqRun cap ids (m + 1) =
        seqStep ids (seqRun cap ids m) (m + 1) := by
      unfold seqRun
      rw [List.range_succ, List.foldl_append]
      rfl
    rw [hstep]
    exact seqStep_expected cap hcap ids hinj m _ ih.1 ih.2.1 ih.2.2

/-- C6: in the sequential scenario with cap `cap`, after `cap + k`
executions have begun and completed (none still running), exactly `cap`
terminal records remain — those of the last `cap` executions, i.e. the
`cap` records with the most recent `endTime`s — and (universally) no
record without an `endTime` (a running record) is ever removed, either by
the size-cap eviction run at `initializeExecution` or by the periodic
`cleanup` sweep. -/
theorem c6_eviction (cap k : Nat) (hcap : 1 ≤ cap) (ids : Nat → String)
    (hinj : ∀ a b, ids a = ids b → a = b) :
    ((seqRun cap ids (cap + k)).results.length = cap ∧
     (seqRun cap ids (cap + k)).results =
       (List.range' (k + 1) cap).map (fun i => (ids i, scenarioRec ids i)) ∧
     (∀ e ∈ (seqRun cap ids (cap + k)).results,
        e.2.status = .completed ∧ e.2.endTime.isSome = true)) ∧
    (∀ (st : MgrState) (now : Nat) (id : String) (r : ExecRecord),
      (st.results.map Prod.fst).Nodup → lookupA st.results id = some r →
      r.endTime = none →
      lookupA (enforceMaxSize st).results id = some r ∧
      lookupA (cleanup st now).results id = some r) := by
  have hinv := seqRun_invariant cap hcap ids hinj (cap + k)
  have hexp : expectedResults cap ids (cap + k) =
      (List.range' (k + 1) cap).map (fun i => (ids i, scenarioRec ids i)) := by
    unfold expectedResults
    have h1 : min (cap + k) cap = cap := by omega
    rw [h1]
    have h2 : cap + k + 1 - cap = k + 1 := by omega
    rw [h2]
  refine ⟨⟨?_, ?_, ?_⟩, ?_⟩
  · rw [hinv.1, hexp]; simp
  · rw [hinv.1, hexp]
  · intro e he
    rw [hinv.1] at he
    rcases mem_expectedResults cap ids (cap + k) e he with ⟨i, _, rfl⟩
    constructor <;> simp [scenarioRec]
  · intro st now id r hnd h hrun
    exact running_not_evicted st now id r hnd h hrun

def unaryId (n : Nat) : String := String.mk (List.replicate n 'a')

theorem unaryId_inj (a b : Nat) (h : unaryId a = unaryId b) : a = b := by
  unfold unaryId at h
  have h' : List.replicate a 'a' = List.replicate b 'a' := by injection h
  have := congrArg List.length h'
  simpa using this

def c6RunningRec : ExecRecord :=
  { executionId := "run", status := .running, startTime := 5 }

def c6RunSt : MgrState :=
  { results := [("run", c6RunningRec)], maxResultsSize := 0 }

theorem c6_witness :
    (seqRun 2 unaryId 3).results.length = 2 ∧
    (seqRun 2 unaryId 3).results =
      [(unaryId 2, scenarioRec unaryId 2), (unaryId 3, scenarioRec unaryId 3)] ∧
    lookupA (enforceMaxSize c6RunSt).results "run" = some c6RunningRec ∧
    lookupA (cleanup c6RunSt 999).results "run" = some c6RunningRec := by
  have h := c6_eviction 2 1 (by omega) unaryId unaryId_inj
  have hsafe := h.2 c6RunSt 999 "run" c6RunningRec (by decide) (by decide) rfl
  refine ⟨h.1.1, ?_, hsafe.1, hsafe.2⟩
  rw [h.1.2.1]
  rfl

end MCDB
